import Mathlib

/-!
Verification of the usage-aggregation core of `ceph_usage_report.py` and
`ceph_usage_report_via_grafana.py`.

The two files share (verbatim) the functions `parse_date`, `bucket_key` and
`aggregate_usage`.  We embed them shallowly:

* Prometheus samples `(timestamp, value)` are modelled as `Int × ℚ`
  (POSIX seconds at second granularity; Python floats are modelled by
  exact rationals, as the spec's statements are all within
  floating-point tolerance).
* `datetime.utcfromtimestamp(ts).date()` is modelled by `utcDate`:
  the proleptic-Gregorian civil date lying `ts / 86400` (floor) days
  after 1970-01-01, computed by the standard civil-from-days algorithm.
  This agrees with CPython for every timestamp whose UTC year lies in
  `1..9999` (CPython's representable datetime range, `ValidTs` below).
* functions that `raise` are modelled in `Except String`.
-/

/-- Era (400-year Gregorian cycle) index of day number `z` shifted to the
epoch 0000-03-01; `Int` division `/` is `Int.ediv`, which is floor division
for the positive divisor used here. -/
def eraOf (z : Int) : Int :=
  (z + 719468) / 146097

/-- Day-of-era (in `0..146096`) of day number `z`. -/
def doeOf (z : Int) : Nat :=
  (z + 719468 - eraOf z * 146097).toNat

/-- Year-of-era (in `0..399`) of a day-of-era. -/
def yoeOf (doe : Nat) : Nat :=
  (doe - doe / 1460 + doe / 36524 - doe / 146096) / 365

/-- Day-of-year (from March 1, in `0..365`) of a day-of-era. -/
def doyOf (doe : Nat) : Nat :=
  doe - (365 * yoeOf doe + yoeOf doe / 4 - yoeOf doe / 100)

/-- Shifted month index (March = 0, ..., February = 11) of a day-of-era. -/
def mpOf (doe : Nat) : Nat :=
  (5 * doyOf doe + 2) / 153

/-- Day of month (in `1..31`) of a day-of-era. -/
def dayOf (doe : Nat) : Nat :=
  doyOf doe - (153 * mpOf doe + 2) / 5 + 1

/-- Calendar month (in `1..12`) of a day-of-era. -/
def monthOf (doe : Nat) : Nat :=
  if mpOf doe < 10 then mpOf doe + 3 else mpOf doe - 9

/-- Calendar year of day number `z` (days since 1970-01-01). -/
def yearOf (z : Int) : Int :=
  eraOf z * 400 + yoeOf (doeOf z) + (if monthOf (doeOf z) ≤ 2 then 1 else 0)

/-- Civil (proleptic Gregorian) date `(year, month, day)` of the day lying
`z` days after 1970-01-01. -/
def civilFromDays (z : Int) : Int × Nat × Nat :=
  (yearOf z, monthOf (doeOf z), dayOf (doeOf z))

/-- March-based year of the civil year `y`: Jan/Feb belong to the
preceding March-started year. -/
def yAdjOf (y : Int) (m : Nat) : Int :=
  y - (if m ≤ 2 then 1 else 0)

/-- Era of the (March-based) year. -/
def eraOfY (y : Int) (m : Nat) : Int :=
  yAdjOf y m / 400

/-- Year-of-era of the (March-based) year. -/
def yoeOfY (y : Int) (m : Nat) : Nat :=
  (yAdjOf y m - eraOfY y m * 400).toNat

/-- Day-of-year (from March 1) of a month/day pair. -/
def doyFromMD (m d : Nat) : Nat :=
  (153 * (if 2 < m then m - 3 else m + 9) + 2) / 5 + d - 1

/-- Day-of-era of a civil date. -/
def doeFromYMD (y : Int) (m d : Nat) : Nat :=
  yoeOfY y m * 365 + yoeOfY y m / 4 - yoeOfY y m / 100 + doyFromMD m d

/-- Day number (days since 1970-01-01) of the civil date `(y, m, d)`;
inverse of `civilFromDays`. -/
def daysFromCivil (y : Int) (m d : Nat) : Int :=
  eraOfY y m * 146097 + (doeFromYMD y m d : Int) - 719468

/-- UTC calendar date of a POSIX timestamp: models
`datetime.utcfromtimestamp(ts).date()` in `bucket_key`. -/
def utcDate (ts : Int) : Int × Nat × Nat :=
  civilFromDays (ts / 86400)

/-- Timestamps whose UTC year is in `1..9999`: exactly the values accepted
by CPython's `datetime.utcfromtimestamp`. -/
def ValidTs (ts : Int) : Prop :=
  -62135596800 ≤ ts ∧ ts ≤ 253402300799

/-- Decimal digit character, as produced by Python's `%d` formatting. -/
def digitChar (n : Nat) : Char :=
  Char.ofNat (48 + n % 10)

/-- Zero-padded 4-digit decimal rendering (`"%04d"`) of `n ≤ 9999`. -/
def pad4 (n : Nat) : List Char :=
  [digitChar (n / 1000), digitChar (n / 100), digitChar (n / 10), digitChar n]

/-- Zero-padded 2-digit decimal rendering (`"%02d"`) of `n ≤ 99`. -/
def pad2 (n : Nat) : List Char :=
  [digitChar (n / 10), digitChar n]

/-- ISO-8601 date string `YYYY-MM-DD`: models `t.date().isoformat()` for
years in `1..9999` (CPython's whole `date` range). -/
def isoDate (t : Int × Nat × Nat) : String :=
  String.mk (pad4 t.1.toNat ++ '-' :: pad2 t.2.1 ++ '-' :: pad2 t.2.2)

/-- Year-month string `YYYY-MM`: models `f"{t.year:04d}-{t.month:02d}"` for
years in `1..9999`. -/
def isoYearMonth (t : Int × Nat × Nat) : String :=
  String.mk (pad4 t.1.toNat ++ '-' :: pad2 t.2.1)

/-- Embedding of `bucket_key(ts, group_by)` (identical in both source
files): the UTC day key for mode `"day"`, the UTC year-month key for mode
`"month"`, and `ValueError` otherwise. -/
def bucket_key (ts : Int) (group_by : String) : Except String String :=
  let t := utcDate ts
  if group_by = "day" then .ok (isoDate t)
  else if group_by = "month" then .ok (isoYearMonth t)
  else .error "group_by must be 'day' or 'month'"

/-- One output row of `aggregate_usage` (the Python dict
`{"period", "avg_bytes", "max_bytes", "avg_gib", "max_gib"}`). -/
structure UsageRow where
  period : String
  avg_bytes : ℚ
  max_bytes : ℚ
  avg_gib : ℚ
  max_gib : ℚ
deriving DecidableEq, Repr

/-- Python's builtin `max` over a list (first element as the running
value; the `[]` case is unreachable at its call site). -/
def listMax : List ℚ → ℚ
  | [] => 0
  | v :: vs => vs.foldl max v

/-- Minimum of a list of values; used only to state bounds on averages. -/
def listMin : List ℚ → ℚ
  | [] => 0
  | v :: vs => vs.foldl min v

/-- Embedding of the keying loop of `aggregate_usage`:
`for ts, val in samples: k = bucket_key(ts, group_by); buckets[k].append(val)`.
Produces the `(key, value)` pairs in order, propagating the first
`bucket_key` failure like the Python loop does. -/
def keySamples (group_by : String) : List (Int × ℚ) → Except String (List (String × ℚ))
  | [] => .ok []
  | (ts, v) :: rest =>
    match bucket_key ts group_by with
    | .error e => .error e
    | .ok k =>
      match keySamples group_by rest with
      | .error e => .error e
      | .ok ks => .ok ((k, v) :: ks)

/-- Values accumulated in bucket `period` (the list `buckets[period]`,
in insertion order). -/
def bucketValues (keyed : List (String × ℚ)) (period : String) : List ℚ :=
  (keyed.filter (fun p => p.1 == period)).map Prod.snd

/-- Lexicographic order on strings seen as their character lists; this is
the order Python's `sorted` uses on strings (code-point lexicographic),
and it is equivalent to `String`'s own `≤` (`String.le_iff_toList_le`). -/
def keyLe (a b : String) : Prop :=
  a.data ≤ b.data

instance : DecidableRel keyLe := fun a b =>
  inferInstanceAs (Decidable (a.data ≤ b.data))

instance : IsTotal String keyLe :=
  ⟨fun a b => le_total a.data b.data⟩

instance : IsTrans String keyLe :=
  ⟨fun _ _ _ => le_trans⟩

/-- Embedding of `sorted(buckets.keys())`: the distinct keys in ascending
lexicographic string order.  `insertionSort` over distinct keys returns the
same list as Python's sort (the ascending ordering of a finite set of
strings is unique). -/
def sortedPeriods (keyed : List (String × ℚ)) : List String :=
  List.insertionSort keyLe (keyed.map Prod.fst).dedup

/-- Embedding of the row constructed for one `period` in the output loop of
`aggregate_usage`. -/
def mkRow (keyed : List (String × ℚ)) (period : String) : UsageRow :=
  let vals := bucketValues keyed period
  let avg_bytes : ℚ := vals.sum / (vals.length : ℚ)
  let max_bytes : ℚ := listMax vals
  { period := period
    avg_bytes := avg_bytes
    max_bytes := max_bytes
    avg_gib := avg_bytes / (1024 : ℚ) ^ 3
    max_gib := max_bytes / (1024 : ℚ) ^ 3 }

/-- The output loop of `aggregate_usage`: one row per sorted distinct key. -/
def reduceBuckets (keyed : List (String × ℚ)) : List UsageRow :=
  (sortedPeriods keyed).map (mkRow keyed)

/-- Embedding of `aggregate_usage` downstream of `query_range`: `samples`
is the list the backend returned.  Mirrors the source order of effects:
empty-input check (`raise ValueError("No data in this interval")`), then
keying (which can raise on a bad `group_by`), then reduction. -/
def aggregate_usage (samples : List (Int × ℚ)) (group_by : String) : Except String (List UsageRow) :=
  if samples = [] then .error "No data in this interval"
  else
    match keySamples group_by samples with
    | .error e => .error e
    | .ok keyed => .ok (reduceBuckets keyed)

/-- Leap-year test of the proleptic Gregorian calendar (`Int` `%` is
`emod`, matching Python `%` on a positive modulus). -/
def isLeap (y : Int) : Bool :=
  y % 4 == 0 && (y % 100 != 0 || y % 400 == 0)

/-- Number of days in month `m` of year `y`. -/
def daysInMonth (y : Int) : Nat → Nat
  | 2 => if isLeap y then 29 else 28
  | 4 => 30
  | 6 => 30
  | 9 => 30
  | 11 => 30
  | _ => 31

/-- Calendar validity of `(y, m, d)`: the date strings `strptime` accepts. -/
def ValidDate (y : Int) (m d : Nat) : Prop :=
  1 ≤ m ∧ m ≤ 12 ∧ 1 ≤ d ∧ d ≤ daysInMonth y m

/-- POSIX seconds of midnight UTC on `(y, m, d)`: models the naive
`datetime` returned by `parse_date` for that date string. -/
def parse_date (y : Int) (m d : Nat) : Int :=
  86400 * daysFromCivil y m d

/-- The query window built by `main`/`aggregate_usage`:
`start = parse_date(from_date)` and
`end = parse_date(to_date) + timedelta(days=1)` (a naive-datetime
`timedelta(days=1)` is exactly 86400 seconds). -/
def queryWindow (fy : Int) (fm fd : Nat) (ty : Int) (tm td : Nat) : Int × Int :=
  (parse_date fy fm fd, parse_date ty tm td + 86400)

/-- The `%Y` field of `strptime`: exactly four decimal digits
(CPython `_strptime` regex `\d\d\d\d`). -/
def year4 : List Char → Option (Nat × List Char)
  | c1 :: c2 :: c3 :: c4 :: rest =>
    if c1.isDigit ∧ c2.isDigit ∧ c3.isDigit ∧ c4.isDigit then
      some (1000 * (c1.toNat - 48) + 100 * (c2.toNat - 48)
        + 10 * (c3.toNat - 48) + (c4.toNat - 48), rest)
    else none
  | _ => none

/-- The `%m` field of `strptime`: CPython regex `1[0-2]|0[1-9]|[1-9]`,
first alternative taken greedily (backtracking cannot change the result
because the field is followed by a literal `-`, never a digit). -/
def monthPat : List Char → Option (Nat × List Char)
  | '1' :: c :: rest =>
    if c = '0' ∨ c = '1' ∨ c = '2' then some (10 + (c.toNat - 48), rest)
    else some (1, c :: rest)
  | '0' :: c :: rest =>
    if c.isDigit ∧ c ≠ '0' then some (c.toNat - 48, rest) else none
  | c :: rest =>
    if c.isDigit ∧ c ≠ '0' then some (c.toNat - 48, rest) else none
  | [] => none

/-- The `%d` field of `strptime`: CPython regex
`3[01]|[12]\d|0[1-9]|[1-9]`, first alternative taken greedily. -/
def dayPat : List Char → Option (Nat × List Char)
  | '3' :: c :: rest =>
    if c = '0' ∨ c = '1' then some (30 + (c.toNat - 48), rest)
    else some (3, c :: rest)
  | '1' :: c :: rest =>
    if c.isDigit then some (10 + (c.toNat - 48), rest) else some (1, c :: rest)
  | '2' :: c :: rest =>
    if c.isDigit then some (20 + (c.toNat - 48), rest) else some (2, c :: rest)
  | '0' :: c :: rest =>
    if c.isDigit ∧ c ≠ '0' then some (c.toNat - 48, rest) else none
  | c :: rest =>
    if c.isDigit ∧ c ≠ '0' then some (c.toNat - 48, rest) else none
  | [] => none

/-- Embedding of `parse_date(s)` = `datetime.strptime(s, "%Y-%m-%d")` at
the string level: the `_strptime` regex for `%Y-%m-%d` must match the
whole string, then the `datetime` constructor checks `MINYEAR ≤ year`
(the four-digit year is already ≤ 9999 = `MAXYEAR`) and the day against
the month's length.  Failures are `ValueError`s raised before any fetch;
the messages abbreviate CPython's formatted ones. -/
def parse_date_str (s : String) : Except String (Int × Nat × Nat) :=
  match year4 s.data with
  | none => .error "time data does not match format"
  | some (y, r1) =>
    match r1 with
    | '-' :: r2 =>
      match monthPat r2 with
      | none => .error "time data does not match format"
      | some (m, r3) =>
        match r3 with
        | '-' :: r4 =>
          match dayPat r4 with
          | none => .error "time data does not match format"
          | some (d, r5) =>
            if r5 ≠ [] then .error "unconverted data remains"
            else if y = 0 then .error "year 0 is out of range"
            else if daysInMonth (y : Int) m < d then .error "day is out of range for month"
            else .ok ((y : Int), m, d)
        | _ => .error "time data does not match format"
    | _ => .error "time data does not match format"

set_option linter.unusedVariables false in
/-- Full `aggregate_usage(pool_id, from_date, to_date, group_by)` of
`ceph_usage_report.py`, with the one network effect made explicit.  It
mirrors the source order of effects: `parse_date(from_date)` then
`parse_date(to_date)` (each raising `ValueError` on a malformed date
string before any fetch), then the `query_range` HTTP call — whose
response for this invocation is the explicit `backendSamples` input (the
backend's state is an input of the run, not of the function's declared
parameters; the parsed window and `pool_id` only select which query is
sent) — then the aggregation of the returned samples. -/
def aggregate_usage_run (backendSamples : List (Int × ℚ))
    (pool_id from_date to_date group_by : String) : Except String (List UsageRow) :=
  match parse_date_str from_date with
  | .error e => .error e
  | .ok fromD =>
    match parse_date_str to_date with
    | .error e => .error e
    | .ok toD => aggregate_usage backendSamples group_by

deriving instance DecidableEq for Except

unseal Rat.add Rat.mul Rat.inv Rat.sub

/-! ## Calendar lemmas -/

/-- Day-of-era decomposition: `doeOf z` is the remainder of `z + 719468`
modulo the era length. -/
theorem doeOf_spec (z : Int) :
    (doeOf z : Int) = z + 719468 - eraOf z * 146097 ∧ doeOf z ≤ 146096 := by
  unfold doeOf eraOf
  constructor <;> omega

set_option maxHeartbeats 4000000 in
/-- Core arithmetic fact behind the civil-date algorithm: the computed
year-of-era never overshoots the day-of-era, and leaves at most 365 days
of the year.  Proved by exhausting the 400 possible years of an era. -/
theorem yoe_facts_aux (doe : Nat) (h : doe ≤ 146096) :
    365 * ((doe - doe / 1460 + doe / 36524 - doe / 146096) / 365)
      + ((doe - doe / 1460 + doe / 36524 - doe / 146096) / 365) / 4
      - ((doe - doe / 1460 + doe / 36524 - doe / 146096) / 365) / 100 ≤ doe ∧
    doe - (365 * ((doe - doe / 1460 + doe / 36524 - doe / 146096) / 365)
      + ((doe - doe / 1460 + doe / 36524 - doe / 146096) / 365) / 4
      - ((doe - doe / 1460 + doe / 36524 - doe / 146096) / 365) / 100) ≤ 365 := by
  have hk : (doe - doe / 1460 + doe / 36524 - doe / 146096) / 365 ≤ 399 := by omega
  set k := (doe - doe / 1460 + doe / 36524 - doe / 146096) / 365 with hkdef
  interval_cases k <;> omega

/-- Facts about `yoeOf` and `doyOf` in their named form. -/
theorem yoe_facts (doe : Nat) (h : doe ≤ 146096) :
    365 * yoeOf doe + yoeOf doe / 4 - yoeOf doe / 100 + doyOf doe = doe ∧
    yoeOf doe ≤ 399 ∧ doyOf doe ≤ 365 := by
  have h1 := yoe_facts_aux doe h
  unfold doyOf yoeOf
  omega

/-- Month/day reconstruction: within a (March-started) year, the shifted
month index and day computed by the algorithm recover the day-of-year. -/
theorem md_facts (doe : Nat) (h : doyOf doe ≤ 365) :
    (153 * mpOf doe + 2) / 5 + dayOf doe - 1 = doyOf doe ∧
    (153 * mpOf doe + 2) / 5 ≤ doyOf doe ∧
    mpOf doe ≤ 11 ∧ 1 ≤ dayOf doe ∧ dayOf doe ≤ 31 := by
  unfold dayOf mpOf
  omega

/-- The calendar month is in `1..12`, it is January or February exactly
when the shifted index wrapped, and the inverse shift recovers `mpOf`. -/
theorem month_facts (doe : Nat) (h : doyOf doe ≤ 365) :
    1 ≤ monthOf doe ∧ monthOf doe ≤ 12 ∧
    ((monthOf doe ≤ 2) ↔ 10 ≤ mpOf doe) ∧
    (if 2 < monthOf doe then monthOf doe - 3 else monthOf doe + 9) = mpOf doe := by
  have h1 := md_facts doe h
  unfold monthOf
  rcases Nat.lt_or_ge (mpOf doe) 10 with h2 | h2
  · rw [if_pos h2, if_pos (show 2 < mpOf doe + 3 by omega)]
    exact ⟨by omega, by omega, by omega, by omega⟩
  · rw [if_neg (by omega), if_neg (show ¬ 2 < mpOf doe - 9 by omega)]
    exact ⟨by omega, by omega, by omega, by omega⟩

/-- Round trip: `daysFromCivil` is a left inverse of `civilFromDays`. -/
theorem daysFromCivil_civilFromDays (z : Int) :
    daysFromCivil (civilFromDays z).1 (civilFromDays z).2.1 (civilFromDays z).2.2 = z := by
  obtain ⟨hdoe, hdoeB⟩ := doeOf_spec z
  obtain ⟨hy1, hy2, hy3⟩ := yoe_facts (doeOf z) hdoeB
  obtain ⟨hm1, hm2, hm3, hm4, hm5⟩ := md_facts (doeOf z) hy3
  obtain ⟨hq1, hq2, hq3, hq4⟩ := month_facts (doeOf z) hy3
  show daysFromCivil (yearOf z) (monthOf (doeOf z)) (dayOf (doeOf z)) = z
  have hyAdj : yAdjOf (yearOf z) (monthOf (doeOf z)) = eraOf z * 400 + yoeOf (doeOf z) := by
    unfold yAdjOf yearOf
    omega
  have hera : eraOfY (yearOf z) (monthOf (doeOf z)) = eraOf z := by
    unfold eraOfY
    rw [hyAdj]
    omega
  have hyoe : yoeOfY (yearOf z) (monthOf (doeOf z)) = yoeOf (doeOf z) := by
    unfold yoeOfY
    rw [hyAdj, hera]
    omega
  have hdoy : doyFromMD (monthOf (doeOf z)) (dayOf (doeOf z)) = doyOf (doeOf z) := by
    unfold doyFromMD
    rw [hq4]
    omega
  have hdoe2 : doeFromYMD (yearOf z) (monthOf (doeOf z)) (dayOf (doeOf z)) = doeOf z := by
    unfold doeFromYMD
    rw [hyoe, hdoy]
    omega
  unfold daysFromCivil
  rw [hera, hdoe2]
  omega

/-- `civilFromDays` is injective (it has a left inverse). -/
theorem civilFromDays_inj {z1 z2 : Int} (h : civilFromDays z1 = civilFromDays z2) :
    z1 = z2 := by
  have h1 := daysFromCivil_civilFromDays z1
  have h2 := daysFromCivil_civilFromDays z2
  rw [h] at h1
  omega

/-- Bounds of the era index on the CPython-representable day range. -/
theorem yearOf_bounds (z : Int) (hlo : -719162 ≤ z) (hhi : z ≤ 2932896) :
    1 ≤ yearOf z ∧ yearOf z ≤ 9999 := by
  obtain ⟨hdoe, hdoeB⟩ := doeOf_spec z
  obtain ⟨hy1, hy2, hy3⟩ := yoe_facts (doeOf z) hdoeB
  obtain ⟨hq1, hq2, hq3, hq4⟩ := month_facts (doeOf z) hy3
  have hera : eraOf z = (z + 719468) / 146097 := rfl
  have hmp : mpOf (doeOf z) = (5 * doyOf (doeOf z) + 2) / 153 := rfl
  unfold yearOf
  rcases le_or_lt (monthOf (doeOf z)) 2 with hmle | hmgt
  · rw [if_pos hmle]
    constructor <;> omega
  · rw [if_neg (by omega)]
    constructor <;> omega

/-- Month and day bounds of the civil date of any day number. -/
theorem civil_md_bounds (z : Int) :
    1 ≤ (civilFromDays z).2.1 ∧ (civilFromDays z).2.1 ≤ 12 ∧
    1 ≤ (civilFromDays z).2.2 ∧ (civilFromDays z).2.2 ≤ 31 := by
  obtain ⟨hdoe, hdoeB⟩ := doeOf_spec z
  obtain ⟨hy1, hy2, hy3⟩ := yoe_facts (doeOf z) hdoeB
  obtain ⟨hm1, hm2, hm3, hm4, hm5⟩ := md_facts (doeOf z) hy3
  obtain ⟨hq1, hq2, hq3, hq4⟩ := month_facts (doeOf z) hy3
  exact ⟨hq1, hq2, hm4, hm5⟩

/-- A digit character determines the digit. -/
theorem digitChar_inj {a b : Nat} (h : digitChar a = digitChar b) : a % 10 = b % 10 := by
  unfold digitChar at h
  have ha : a % 10 < 10 := Nat.mod_lt _ (by omega)
  have hb : b % 10 < 10 := Nat.mod_lt _ (by omega)
  set x := a % 10 with hx
  set y := b % 10 with hy
  clear_value x y
  interval_cases x <;> interval_cases y <;> revert h <;> decide

/-- The `YYYY-MM-DD` rendering is injective on the CPython date range. -/
theorem isoDate_inj {t1 t2 : Int × Nat × Nat}
    (h1a : 0 ≤ t1.1) (h1b : t1.1 ≤ 9999) (h1c : t1.2.1 ≤ 99) (h1d : t1.2.2 ≤ 99)
    (h2a : 0 ≤ t2.1) (h2b : t2.1 ≤ 9999) (h2c : t2.2.1 ≤ 99) (h2d : t2.2.2 ≤ 99)
    (h : isoDate t1 = isoDate t2) : t1 = t2 := by
  obtain ⟨y1, m1, d1⟩ := t1
  obtain ⟨y2, m2, d2⟩ := t2
  simp only at h1a h1b h1c h1d h2a h2b h2c h2d
  unfold isoDate pad4 pad2 at h
  rw [String.ext_iff] at h
  simp only [List.cons_append, List.nil_append, List.cons.injEq, and_true] at h
  obtain ⟨e1, e2, e3, e4, -, e5, e6, -, e7, e8⟩ := h
  have g1 := digitChar_inj e1
  have g2 := digitChar_inj e2
  have g3 := digitChar_inj e3
  have g4 := digitChar_inj e4
  have g5 := digitChar_inj e5
  have g6 := digitChar_inj e6
  have g7 := digitChar_inj e7
  have g8 := digitChar_inj e8
  have hy : y1.toNat = y2.toNat := by omega
  have hm : m1 = m2 := by omega
  have hd : d1 = d2 := by omega
  have : y1 = y2 := by omega
  simp [this, hm, hd]

/-- The `YYYY-MM` rendering is injective on the CPython date range. -/
theorem isoYearMonth_inj {t1 t2 : Int × Nat × Nat}
    (h1a : 0 ≤ t1.1) (h1b : t1.1 ≤ 9999) (h1c : t1.2.1 ≤ 99)
    (h2a : 0 ≤ t2.1) (h2b : t2.1 ≤ 9999) (h2c : t2.2.1 ≤ 99)
    (h : isoYearMonth t1 = isoYearMonth t2) : t1.1 = t2.1 ∧ t1.2.1 = t2.2.1 := by
  obtain ⟨y1, m1, d1⟩ := t1
  obtain ⟨y2, m2, d2⟩ := t2
  simp only at h1a h1b h1c h2a h2b h2c ⊢
  unfold isoYearMonth pad4 pad2 at h
  rw [String.ext_iff] at h
  simp only [List.cons_append, List.nil_append, List.cons.injEq, and_true] at h
  obtain ⟨e1, e2, e3, e4, -, e5, e6⟩ := h
  have g1 := digitChar_inj e1
  have g2 := digitChar_inj e2
  have g3 := digitChar_inj e3
  have g4 := digitChar_inj e4
  have g5 := digitChar_inj e5
  have g6 := digitChar_inj e6
  constructor <;> omega

/-! ## Bucket-key lemmas -/

/-- Mode `"day"` produces the ISO date of the UTC calendar date. -/
theorem bucket_key_day (ts : Int) :
    bucket_key ts "day" = .ok (isoDate (utcDate ts)) := rfl

/-- Mode `"month"` produces the zero-padded year-month of the UTC date. -/
theorem bucket_key_month (ts : Int) :
    bucket_key ts "month" = .ok (isoYearMonth (utcDate ts)) := by
  unfold bucket_key
  rw [if_neg (by decide), if_pos rfl]

/-- On the CPython-representable range, the UTC year is in `1..9999`. -/
theorem utcDate_year_bounds (ts : Int) (h : ValidTs ts) :
    1 ≤ (utcDate ts).1 ∧ (utcDate ts).1 ≤ 9999 := by
  obtain ⟨hlo, hhi⟩ := h
  have hz1 : -719162 ≤ ts / 86400 := by omega
  have hz2 : ts / 86400 ≤ 2932896 := by omega
  exact yearOf_bounds (ts / 86400) hz1 hz2

/-- Two valid timestamps get the same `"day"` key iff they lie in the same
UTC day (same floor of `ts / 86400`). -/
theorem bucket_key_day_inj (ts1 ts2 : Int) (h1 : ValidTs ts1) (h2 : ValidTs ts2) :
    bucket_key ts1 "day" = bucket_key ts2 "day" ↔ ts1 / 86400 = ts2 / 86400 := by
  rw [bucket_key_day, bucket_key_day]
  constructor
  · intro h
    have h' : isoDate (utcDate ts1) = isoDate (utcDate ts2) := by
      simpa using h
    obtain ⟨b1a, b1b⟩ := utcDate_year_bounds ts1 h1
    obtain ⟨b2a, b2b⟩ := utcDate_year_bounds ts2 h2
    obtain ⟨c1a, c1b, c1c, c1d⟩ := civil_md_bounds (ts1 / 86400)
    obtain ⟨c2a, c2b, c2c, c2d⟩ := civil_md_bounds (ts2 / 86400)
    have hcu1 : civilFromDays (ts1 / 86400) = utcDate ts1 := rfl
    have hcu2 : civilFromDays (ts2 / 86400) = utcDate ts2 := rfl
    rw [hcu1] at c1a c1b c1c c1d
    rw [hcu2] at c2a c2b c2c c2d
    have hu : utcDate ts1 = utcDate ts2 :=
      isoDate_inj (by omega) (by omega) (by omega) (by omega)
        (by omega) (by omega) (by omega) (by omega) h'
    have hu2 : civilFromDays (ts1 / 86400) = civilFromDays (ts2 / 86400) := by
      rw [hcu1, hcu2]
      exact hu
    exact civilFromDays_inj hu2
  · intro h
    unfold utcDate
    rw [h]

/-- Two valid timestamps get the same `"month"` key iff their UTC dates
have the same year and month. -/
theorem bucket_key_month_inj (ts1 ts2 : Int) (h1 : ValidTs ts1) (h2 : ValidTs ts2) :
    bucket_key ts1 "month" = bucket_key ts2 "month" ↔
      ((utcDate ts1).1 = (utcDate ts2).1 ∧ (utcDate ts1).2.1 = (utcDate ts2).2.1) := by
  rw [bucket_key_month, bucket_key_month]
  constructor
  · intro h
    have h' : isoYearMonth (utcDate ts1) = isoYearMonth (utcDate ts2) := by
      simpa using h
    obtain ⟨b1a, b1b⟩ := utcDate_year_bounds ts1 h1
    obtain ⟨b2a, b2b⟩ := utcDate_year_bounds ts2 h2
    obtain ⟨c1a, c1b, c1c, c1d⟩ := civil_md_bounds (ts1 / 86400)
    obtain ⟨c2a, c2b, c2c, c2d⟩ := civil_md_bounds (ts2 / 86400)
    have hcu1 : civilFromDays (ts1 / 86400) = utcDate ts1 := rfl
    have hcu2 : civilFromDays (ts2 / 86400) = utcDate ts2 := rfl
    rw [hcu1] at c1a c1b c1c c1d
    rw [hcu2] at c2a c2b c2c c2d
    exact isoYearMonth_inj (by omega) (by omega) (by omega)
      (by omega) (by omega) (by omega) h'
  · intro h
    unfold isoYearMonth
    rw [h.1, h.2]

/-! ## List statistics lemmas -/

/-- The running maximum of a fold is at least its starting value. -/
theorem init_le_foldl_max : ∀ (vs : List ℚ) (v : ℚ), v ≤ vs.foldl max v
  | [], v => le_refl v
  | w :: vs, v => le_trans (le_max_left v w) (init_le_foldl_max vs (max v w))

/-- Every member of the list is at most the fold of `max`. -/
theorem mem_le_foldl_max : ∀ (vs : List ℚ) (v x : ℚ), x ∈ vs → x ≤ vs.foldl max v := by
  intro vs
  induction vs with
  | nil => intro v x hx; cases hx
  | cons w ws ih =>
    intro v x hx
    rcases List.mem_cons.1 hx with h | h
    · subst h
      exact le_trans (le_max_right v x) (init_le_foldl_max ws (max v x))
    · exact ih (max v w) x h

/-- The fold of `max` is the starting value or a member of the list. -/
theorem foldl_max_mem : ∀ (vs : List ℚ) (v : ℚ), vs.foldl max v = v ∨ vs.foldl max v ∈ vs := by
  intro vs
  induction vs with
  | nil => intro v; exact Or.inl rfl
  | cons w ws ih =>
    intro v
    rcases ih (max v w) with h | h
    · rcases le_total v w with hvw | hwv
      · right
        rw [List.foldl_cons, h, max_eq_right hvw]
        exact List.mem_cons_self w ws
      · left
        rw [List.foldl_cons, h, max_eq_left hwv]
    · right
      exact List.mem_cons_of_mem w h

/-- Python's `max` of a non-empty list is a member of the list. -/
theorem listMax_mem {l : List ℚ} (h : l ≠ []) : listMax l ∈ l := by
  cases l with
  | nil => exact absurd rfl h
  | cons v vs =>
    show vs.foldl max v ∈ v :: vs
    rcases foldl_max_mem vs v with h1 | h1
    · rw [h1]
      exact List.mem_cons_self v vs
    · exact List.mem_cons_of_mem v h1

/-- Every member of a list is at most its `listMax`. -/
theorem le_listMax {l : List ℚ} {x : ℚ} (h : x ∈ l) : x ≤ listMax l := by
  cases l with
  | nil => cases h
  | cons v vs =>
    show x ≤ vs.foldl max v
    rcases List.mem_cons.1 h with h1 | h1
    · subst h1
      exact init_le_foldl_max vs x
    · exact mem_le_foldl_max vs v x h1

/-- The running minimum of a fold is at most its starting value. -/
theorem foldl_min_le_init : ∀ (vs : List ℚ) (v : ℚ), vs.foldl min v ≤ v
  | [], v => le_refl v
  | w :: vs, v => le_trans (foldl_min_le_init vs (min v w)) (min_le_left v w)

/-- The fold of `min` is below every member of the list. -/
theorem foldl_min_le_mem : ∀ (vs : List ℚ) (v x : ℚ), x ∈ vs → vs.foldl min v ≤ x := by
  intro vs
  induction vs with
  | nil => intro v x hx; cases hx
  | cons w ws ih =>
    intro v x hx
    rcases List.mem_cons.1 hx with h | h
    · subst h
      exact le_trans (foldl_min_le_init ws (min v x)) (min_le_right v x)
    · exact ih (min v w) x h

/-- The `listMin` of a list is below every member. -/
theorem listMin_le {l : List ℚ} {x : ℚ} (h : x ∈ l) : listMin l ≤ x := by
  cases l with
  | nil => cases h
  | cons v vs =>
    show vs.foldl min v ≤ x
    rcases List.mem_cons.1 h with h1 | h1
    · subst h1
      exact foldl_min_le_init vs x
    · exact foldl_min_le_mem vs v x h1

/-- The arithmetic mean of a non-empty list lies between its minimum and
its maximum. -/
theorem avg_between {l : List ℚ} (h : l ≠ []) :
    listMin l ≤ l.sum / (l.length : ℚ) ∧ l.sum / (l.length : ℚ) ≤ listMax l := by
  have hlen : 0 < (l.length : ℚ) := by
    have : 0 < l.length := List.length_pos.2 h
    exact_mod_cast this
  have hup : l.sum ≤ (l.length : ℚ) * listMax l := by
    have := List.sum_le_card_nsmul l (listMax l) (fun x hx => le_listMax hx)
    simpa [nsmul_eq_mul] using this
  have hdown : (l.length : ℚ) * listMin l ≤ l.sum := by
    have := List.card_nsmul_le_sum l (listMin l) (fun x hx => listMin_le hx)
    simpa [nsmul_eq_mul] using this
  constructor
  · rw [le_div_iff₀ hlen]
    linarith
  · rw [div_le_iff₀ hlen]
    linarith

/-! ## Aggregation structure lemmas -/

/-- Successful keying preserves the number of samples. -/
theorem keySamples_ok_length {gb : String} :
    ∀ {s : List (Int × ℚ)} {keyed : List (String × ℚ)},
      keySamples gb s = .ok keyed → keyed.length = s.length := by
  intro s
  induction s with
  | nil =>
    intro keyed h
    simp only [keySamples] at h
    cases h
    rfl
  | cons p rest ih =>
    intro keyed h
    obtain ⟨ts, v⟩ := p
    simp only [keySamples] at h
    split at h
    · exact Except.noConfusion h
    · split at h
      · exact Except.noConfusion h
      · rename_i k hbk ks hks
        cases h
        simp [ih hks]

/-- Aggregation when the input is non-empty and keying succeeds. -/
theorem aggregate_usage_eq {samples : List (Int × ℚ)} {gb : String}
    {keyed : List (String × ℚ)} (h1 : samples ≠ [])
    (h2 : keySamples gb samples = .ok keyed) :
    aggregate_usage samples gb = .ok (reduceBuckets keyed) := by
  unfold aggregate_usage
  rw [if_neg h1, h2]

/-- Inversion of a successful aggregation. -/
theorem aggregate_usage_ok_inv {samples : List (Int × ℚ)} {gb : String}
    {rows : List UsageRow} (h : aggregate_usage samples gb = .ok rows) :
    samples ≠ [] ∧
      ∃ keyed, keySamples gb samples = .ok keyed ∧ rows = reduceBuckets keyed := by
  unfold aggregate_usage at h
  by_cases hs : samples = []
  · rw [if_pos hs] at h
    exact Except.noConfusion h
  · rw [if_neg hs] at h
    refine ⟨hs, ?_⟩
    cases hks : keySamples gb samples with
    | error e =>
      rw [hks] at h
      exact Except.noConfusion h
    | ok keyed =>
      rw [hks] at h
      exact ⟨keyed, rfl, (Except.ok.inj h).symm⟩

/-- The sorted period list has exactly the distinct keys as members. -/
theorem mem_sortedPeriods {keyed : List (String × ℚ)} {p : String} :
    p ∈ sortedPeriods keyed ↔ p ∈ keyed.map Prod.fst := by
  unfold sortedPeriods
  rw [(List.perm_insertionSort keyLe _).mem_iff, List.mem_dedup]

/-- The number of periods is the number of distinct keys. -/
theorem sortedPeriods_length (keyed : List (String × ℚ)) :
    (sortedPeriods keyed).length = (keyed.map Prod.fst).dedup.length :=
  (List.perm_insertionSort keyLe _).length_eq

/-- The period list is sorted in (list-lexicographic) ascending order. -/
theorem sortedPeriods_sorted (keyed : List (String × ℚ)) :
    List.Sorted keyLe (sortedPeriods keyed) :=
  List.sorted_insertionSort keyLe _

/-- A bucket whose key occurs among the keys is non-empty. -/
theorem bucketValues_ne_nil {keyed : List (String × ℚ)} {p : String}
    (h : p ∈ keyed.map Prod.fst) : bucketValues keyed p ≠ [] := by
  obtain ⟨pair, hmem, hfst⟩ := List.mem_map.1 h
  unfold bucketValues
  intro hcontra
  have hpair : pair ∈ keyed.filter (fun q => q.1 == p) :=
    List.mem_filter.2 ⟨hmem, by simp [hfst]⟩
  rw [List.map_eq_nil] at hcontra
  rw [hcontra] at hpair
  cases hpair

/-- Rows are exactly the images of the sorted periods. -/
theorem mem_reduceBuckets {keyed : List (String × ℚ)} {row : UsageRow} :
    row ∈ reduceBuckets keyed ↔ ∃ p ∈ sortedPeriods keyed, mkRow keyed p = row :=
  List.mem_map

/-! ## Claim theorems -/

/-- C1: For every non-empty sample sequence and every bucket produced by
aggregation, the returned row's `max_bytes` equals the maximum of the
values in that bucket, and `avg_bytes` lies between the minimum and the
maximum value of that bucket, inclusive. -/
theorem aggregate_rows_max_and_avg_bounds
    (samples : List (Int × ℚ)) (gb : String) (keyed : List (String × ℚ))
    (rows : List UsageRow)
    (hne : samples ≠ [])
    (hkey : keySamples gb samples = .ok keyed)
    (hagg : aggregate_usage samples gb = .ok rows) :
    ∀ row ∈ rows,
      row.max_bytes = listMax (bucketValues keyed row.period) ∧
      listMin (bucketValues keyed row.period) ≤ row.avg_bytes ∧
      row.avg_bytes ≤ listMax (bucketValues keyed row.period) := by
  intro row hrow
  obtain ⟨-, keyed', hkey', hrows⟩ := aggregate_usage_ok_inv hagg
  rw [hkey] at hkey'
  obtain rfl : keyed = keyed' := Except.ok.inj hkey'
  subst hrows
  obtain ⟨p, hp, hrow_eq⟩ := mem_reduceBuckets.1 hrow
  subst hrow_eq
  have hbne : bucketValues keyed p ≠ [] :=
    bucketValues_ne_nil (mem_sortedPeriods.1 hp)
  obtain ⟨hlow, hhigh⟩ := avg_between hbne
  exact ⟨rfl, hlow, hhigh⟩

/-- C1 witness: the spec's own scenario (three samples over two days,
shifted to the epoch), instantiated at the first returned row. -/
theorem aggregate_rows_max_and_avg_bounds_witness :
    ([((0 : Int), (100 : ℚ)), (43200, 300), (86400, 500)] ≠ ([] : List (Int × ℚ))) ∧
    keySamples "day" [(0, 100), (43200, 300), (86400, 500)]
      = .ok [("1970-01-01", 100), ("1970-01-01", 300), ("1970-01-02", 500)] ∧
    aggregate_usage [(0, 100), (43200, 300), (86400, 500)] "day"
      = .ok [{ period := "1970-01-01", avg_bytes := 200, max_bytes := 300,
               avg_gib := 200 / 1073741824, max_gib := 300 / 1073741824 },
             { period := "1970-01-02", avg_bytes := 500, max_bytes := 500,
               avg_gib := 500 / 1073741824, max_gib := 500 / 1073741824 }] ∧
    (({ period := "1970-01-01", avg_bytes := 200, max_bytes := 300,
        avg_gib := 200 / 1073741824, max_gib := 300 / 1073741824 } : UsageRow).max_bytes
       = listMax (bucketValues [("1970-01-01", 100), ("1970-01-01", 300), ("1970-01-02", 500)]
           "1970-01-01") ∧
     listMin (bucketValues [("1970-01-01", 100), ("1970-01-01", 300), ("1970-01-02", 500)]
         "1970-01-01")
       ≤ ({ period := "1970-01-01", avg_bytes := 200, max_bytes := 300,
            avg_gib := 200 / 1073741824, max_gib := 300 / 1073741824 } : UsageRow).avg_bytes ∧
     ({ period := "1970-01-01", avg_bytes := 200, max_bytes := 300,
        avg_gib := 200 / 1073741824, max_gib := 300 / 1073741824 } : UsageRow).avg_bytes
       ≤ listMax (bucketValues [("1970-01-01", 100), ("1970-01-01", 300), ("1970-01-02", 500)]
           "1970-01-01")) :=
  ⟨by decide, by decide, by decide,
   aggregate_rows_max_and_avg_bounds
     [(0, 100), (43200, 300), (86400, 500)] "day"
     [("1970-01-01", 100), ("1970-01-01", 300), ("1970-01-02", 500)]
     [{ period := "1970-01-01", avg_bytes := 200, max_bytes := 300,
        avg_gib := 200 / 1073741824, max_gib := 300 / 1073741824 },
      { period := "1970-01-02", avg_bytes := 500, max_bytes := 500,
        avg_gib := 500 / 1073741824, max_gib := 500 / 1073741824 }]
     (by decide) (by decide) (by decide)
     { period := "1970-01-01", avg_bytes := 200, max_bytes := 300,
       avg_gib := 200 / 1073741824, max_gib := 300 / 1073741824 }
     (by decide)⟩

/-- C2: For every non-empty sample sequence, aggregation (when it
succeeds) returns at least one row, and the number of rows equals the
number of distinct bucket keys induced by the bucket-key function with the
chosen grouping mode on the samples' timestamps. -/
theorem aggregate_rows_count_distinct_keys
    (samples : List (Int × ℚ)) (gb : String) (keyed : List (String × ℚ))
    (rows : List UsageRow)
    (hne : samples ≠ [])
    (hkey : keySamples gb samples = .ok keyed)
    (hagg : aggregate_usage samples gb = .ok rows) :
    0 < rows.length ∧ rows.length = (keyed.map Prod.fst).dedup.length := by
  obtain ⟨-, keyed', hkey', hrows⟩ := aggregate_usage_ok_inv hagg
  rw [hkey] at hkey'
  obtain rfl : keyed = keyed' := Except.ok.inj hkey'
  subst hrows
  have hlen : (reduceBuckets keyed).length = (keyed.map Prod.fst).dedup.length := by
    unfold reduceBuckets
    rw [List.length_map, sortedPeriods_length]
  refine ⟨?_, hlen⟩
  have hkl := keySamples_ok_length hkey
  have hkeyed_ne : keyed ≠ [] := by
    intro hc
    subst hc
    exact hne (List.length_eq_zero.1 hkl.symm)
  obtain ⟨pair, hp⟩ := List.exists_mem_of_ne_nil keyed hkeyed_ne
  have hmem : pair.1 ∈ (keyed.map Prod.fst).dedup :=
    List.mem_dedup.2 (List.mem_map_of_mem Prod.fst hp)
  rw [hlen]
  exact List.length_pos.2 (List.ne_nil_of_mem hmem)

/-- C2 witness: three samples on two distinct days give two rows. -/
theorem aggregate_rows_count_distinct_keys_witness :
    ([((0 : Int), (100 : ℚ)), (43200, 300), (86400, 500)] ≠ ([] : List (Int × ℚ))) ∧
    (0 < ([{ period := "1970-01-01", avg_bytes := 200, max_bytes := 300,
             avg_gib := 200 / 1073741824, max_gib := 300 / 1073741824 },
           { period := "1970-01-02", avg_bytes := 500, max_bytes := 500,
             avg_gib := 500 / 1073741824, max_gib := 500 / 1073741824 }] : List UsageRow).length ∧
     ([{ period := "1970-01-01", avg_bytes := 200, max_bytes := 300,
         avg_gib := 200 / 1073741824, max_gib := 300 / 1073741824 },
       { period := "1970-01-02", avg_bytes := 500, max_bytes := 500,
         avg_gib := 500 / 1073741824, max_gib := 500 / 1073741824 }] : List UsageRow).length
       = (([("1970-01-01", (100 : ℚ)), ("1970-01-01", 300), ("1970-01-02", 500)].map
           Prod.fst).dedup).length) :=
  ⟨by decide,
   aggregate_rows_count_distinct_keys
     [(0, 100), (43200, 300), (86400, 500)] "day"
     [("1970-01-01", 100), ("1970-01-01", 300), ("1970-01-02", 500)]
     [{ period := "1970-01-01", avg_bytes := 200, max_bytes := 300,
        avg_gib := 200 / 1073741824, max_gib := 300 / 1073741824 },
      { period := "1970-01-02", avg_bytes := 500, max_bytes := 500,
        avg_gib := 500 / 1073741824, max_gib := 500 / 1073741824 }]
     (by decide) (by decide) (by decide)⟩

/-- C3: On CPython's representable timestamp range, mode `"day"` returns
the UTC calendar date in ISO-8601 `YYYY-MM-DD` form and mode `"month"`
returns `YYYY-MM` (four-digit year, hyphen, zero-padded month); two
timestamps get the same `"day"` key iff they lie in the same UTC calendar
day (same floor of `ts / 86400`), and the same `"month"` key iff their UTC
dates agree on year and month.  The embedding fixes UTC (no host time
zone exists in the model). -/
theorem bucket_key_day_month_utc (ts ts1 ts2 : Int)
    (h : ValidTs ts) (h1 : ValidTs ts1) (h2 : ValidTs ts2) :
    bucket_key ts "day" = .ok (isoDate (utcDate ts)) ∧
    bucket_key ts "month" = .ok (isoYearMonth (utcDate ts)) ∧
    (bucket_key ts1 "day" = bucket_key ts2 "day" ↔ ts1 / 86400 = ts2 / 86400) ∧
    (bucket_key ts1 "month" = bucket_key ts2 "month" ↔
      ((utcDate ts1).1 = (utcDate ts2).1 ∧ (utcDate ts1).2.1 = (utcDate ts2).2.1)) :=
  ⟨bucket_key_day ts, bucket_key_month ts,
   bucket_key_day_inj ts1 ts2 h1 h2, bucket_key_month_inj ts1 ts2 h1 h2⟩

/-- C3 witness: the epoch instant and the last second of the epoch day. -/
theorem bucket_key_day_month_utc_witness :
    ValidTs 0 ∧ ValidTs 86399 ∧
    (bucket_key 0 "day" = .ok (isoDate (utcDate 0)) ∧
     bucket_key 0 "month" = .ok (isoYearMonth (utcDate 0)) ∧
     (bucket_key 0 "day" = bucket_key 86399 "day" ↔ (0 : Int) / 86400 = 86399 / 86400) ∧
     (bucket_key 0 "month" = bucket_key 86399 "month" ↔
       ((utcDate 0).1 = (utcDate 86399).1 ∧ (utcDate 0).2.1 = (utcDate 86399).2.1))) :=
  ⟨⟨by decide, by decide⟩, ⟨by decide, by decide⟩,
   bucket_key_day_month_utc 0 0 86399 ⟨by decide, by decide⟩ ⟨by decide, by decide⟩
     ⟨by decide, by decide⟩⟩

/-- C4: For every result of aggregation, the rows are ordered by their
period string in non-decreasing lexicographic order. -/
theorem aggregate_rows_sorted_by_period
    (samples : List (Int × ℚ)) (gb : String) (rows : List UsageRow)
    (hagg : aggregate_usage samples gb = .ok rows) :
    List.Sorted (· ≤ ·) (rows.map UsageRow.period) := by
  obtain ⟨-, keyed, hkey, rfl⟩ := aggregate_usage_ok_inv hagg
  have hmapeq : (reduceBuckets keyed).map UsageRow.period = sortedPeriods keyed := by
    unfold reduceBuckets
    rw [List.map_map, show UsageRow.period ∘ mkRow keyed = id from funext fun p => rfl,
      List.map_id]
  rw [hmapeq]
  exact (sortedPeriods_sorted keyed).imp (fun h => String.le_iff_toList_le.mpr h)

/-- C4 witness: the two-day scenario's rows come out in period order. -/
theorem aggregate_rows_sorted_by_period_witness :
    List.Sorted (· ≤ ·)
      (([{ period := "1970-01-01", avg_bytes := 200, max_bytes := 300,
           avg_gib := 200 / 1073741824, max_gib := 300 / 1073741824 },
         { period := "1970-01-02", avg_bytes := 500, max_bytes := 500,
           avg_gib := 500 / 1073741824, max_gib := 500 / 1073741824 }] : List UsageRow).map
        UsageRow.period) :=
  aggregate_rows_sorted_by_period [(0, 100), (43200, 300), (86400, 500)] "day"
    [{ period := "1970-01-01", avg_bytes := 200, max_bytes := 300,
       avg_gib := 200 / 1073741824, max_gib := 300 / 1073741824 },
     { period := "1970-01-02", avg_bytes := 500, max_bytes := 500,
       avg_gib := 500 / 1073741824, max_gib := 500 / 1073741824 }]
    (by decide)

/-- C5: For every row produced by aggregation, `avg_gib` equals
`avg_bytes / 1073741824` and `max_gib` equals `max_bytes / 1073741824`
(the binary, 1024-based gibibyte). -/
theorem row_gib_conversion
    (samples : List (Int × ℚ)) (gb : String) (rows : List UsageRow)
    (hagg : aggregate_usage samples gb = .ok rows) :
    ∀ row ∈ rows,
      row.avg_gib = row.avg_bytes / 1073741824 ∧
      row.max_gib = row.max_bytes / 1073741824 := by
  intro row hrow
  obtain ⟨-, keyed, hkey, rfl⟩ := aggregate_usage_ok_inv hagg
  obtain ⟨p, hp, hrow_eq⟩ := mem_reduceBuckets.1 hrow
  subst hrow_eq
  constructor
  · show (bucketValues keyed p).sum / ((bucketValues keyed p).length : ℚ) / (1024 : ℚ) ^ 3
      = (bucketValues keyed p).sum / ((bucketValues keyed p).length : ℚ) / 1073741824
    norm_num
  · show listMax (bucketValues keyed p) / (1024 : ℚ) ^ 3
      = listMax (bucketValues keyed p) / 1073741824
    norm_num

/-- C5 witness: the first row of the two-day scenario. -/
theorem row_gib_conversion_witness :
    ({ period := "1970-01-01", avg_bytes := 200, max_bytes := 300,
       avg_gib := 200 / 1073741824, max_gib := 300 / 1073741824 } : UsageRow).avg_gib
      = ({ period := "1970-01-01", avg_bytes := 200, max_bytes := 300,
           avg_gib := 200 / 1073741824, max_gib := 300 / 1073741824 } : UsageRow).avg_bytes
        / 1073741824 ∧
    ({ period := "1970-01-01", avg_bytes := 200, max_bytes := 300,
       avg_gib := 200 / 1073741824, max_gib := 300 / 1073741824 } : UsageRow).max_gib
      = ({ period := "1970-01-01", avg_bytes := 200, max_bytes := 300,
           avg_gib := 200 / 1073741824, max_gib := 300 / 1073741824 } : UsageRow).max_bytes
        / 1073741824 :=
  row_gib_conversion [(0, 100), (43200, 300), (86400, 500)] "day"
    [{ period := "1970-01-01", avg_bytes := 200, max_bytes := 300,
       avg_gib := 200 / 1073741824, max_gib := 300 / 1073741824 },
     { period := "1970-01-02", avg_bytes := 500, max_bytes := 500,
       avg_gib := 500 / 1073741824, max_gib := 500 / 1073741824 }]
    (by decide)
    { period := "1970-01-01", avg_bytes := 200, max_bytes := 300,
      avg_gib := 200 / 1073741824, max_gib := 300 / 1073741824 }
    (by decide)

/-- C6: Aggregating an empty sample sequence fails with the user-facing
error "No data in this interval" for every grouping mode, rather than
returning an empty result. -/
theorem aggregate_empty_input_error (gb : String) :
    aggregate_usage [] gb = .error "No data in this interval" := rfl

/-- C7: For every grouping mode outside `{day, month}` and every
representable timestamp, `bucket_key` fails with the invalid-argument
error; it never silently defaults to a supported mode. -/
theorem bucket_key_invalid_mode_error (ts : Int) (gb : String)
    (hts : ValidTs ts) (h1 : gb ≠ "day") (h2 : gb ≠ "month") :
    bucket_key ts gb = .error "group_by must be 'day' or 'month'" := by
  unfold bucket_key
  rw [if_neg h1, if_neg h2]

/-- C7 witness: mode `"week"` is rejected. -/
theorem bucket_key_invalid_mode_error_witness :
    ValidTs 0 ∧ "week" ≠ "day" ∧ "week" ≠ "month" ∧
    bucket_key 0 "week" = .error "group_by must be 'day' or 'month'" :=
  ⟨⟨by decide, by decide⟩, by decide, by decide,
   bucket_key_invalid_mode_error 0 "week" ⟨by decide, by decide⟩ (by decide) (by decide)⟩

/-- C8: For every valid inclusive to-date, the query window's exclusive
end instant equals the parsed to-date plus one calendar day (the midnight
of the next calendar day); in particular for `from = to = D` the window is
`[D 00:00:00Z, D+1day 00:00:00Z)` — exactly the seconds of day `D`, a
single full day and not zero-width. -/
theorem query_window_end_exclusive (fy ty : Int) (fm fd tm td : Nat)
    (hv : ValidDate ty tm td) :
    (queryWindow fy fm fd ty tm td).2 = parse_date ty tm td + 86400 ∧
    (queryWindow fy fm fd ty tm td).2 = 86400 * (daysFromCivil ty tm td + 1) ∧
    (queryWindow fy fm fd ty tm td).2
      = parse_date (civilFromDays (daysFromCivil ty tm td + 1)).1
          (civilFromDays (daysFromCivil ty tm td + 1)).2.1
          (civilFromDays (daysFromCivil ty tm td + 1)).2.2 ∧
    (queryWindow ty tm td ty tm td).2 = (queryWindow ty tm td ty tm td).1 + 86400 ∧
    (∀ ts : Int,
      ((queryWindow ty tm td ty tm td).1 ≤ ts ∧ ts < (queryWindow ty tm td ty tm td).2)
        ↔ ts / 86400 = daysFromCivil ty tm td) := by
  refine ⟨rfl, ?_, ?_, rfl, ?_⟩
  · show parse_date ty tm td + 86400 = 86400 * (daysFromCivil ty tm td + 1)
    unfold parse_date
    ring
  · show parse_date ty tm td + 86400 = _
    unfold parse_date
    rw [daysFromCivil_civilFromDays]
    ring
  · intro ts
    show (86400 * daysFromCivil ty tm td ≤ ts ∧ ts < 86400 * daysFromCivil ty tm td + 86400)
      ↔ ts / 86400 = daysFromCivil ty tm td
    omega

/-- C8 witness: the spec's scenario `2025-10-01` to `2025-10-01`,
with the timestamp 2025-10-01T00:30:00Z inside the window. -/
theorem query_window_end_exclusive_witness :
    ValidDate 2025 10 1 ∧
    (queryWindow 2025 10 1 2025 10 1).2 = 86400 * (daysFromCivil 2025 10 1 + 1) ∧
    (((queryWindow 2025 10 1 2025 10 1).1 ≤ 1759278600 ∧
      (1759278600 : Int) < (queryWindow 2025 10 1 2025 10 1).2)
      ↔ (1759278600 : Int) / 86400 = daysFromCivil 2025 10 1) :=
  ⟨⟨by decide, by decide, by decide, by decide⟩,
   (query_window_end_exclusive 2025 2025 10 1 10 1
     ⟨by decide, by decide, by decide, by decide⟩).2.1,
   (query_window_end_exclusive 2025 2025 10 1 10 1
     ⟨by decide, by decide, by decide, by decide⟩).2.2.2.2 1759278600⟩

/-- C9 counterexample: `aggregate_usage` is not a function of its declared
call inputs alone — with the one network fetch made explicit, two calls
with identical `(pool_id, from_date, to_date, group_by)` return different
rows when the backend responds differently, because the function performs
the HTTP query itself. -/
theorem aggregate_usage_depends_on_backend :
    aggregate_usage_run [(0, 1)] "7" "2025-10-01" "2025-10-01" "day"
      ≠ aggregate_usage_run [(0, 2)] "7" "2025-10-01" "2025-10-01" "day" := by
  decide

/-- C9 (amended): `aggregate_usage` is not I/O-free — it performs the
range query itself, and a malformed date string raises `strptime`'s
`ValueError` before any fetch — but holding the backend's response fixed,
once both date strings parse the returned rows are exactly the pure,
deterministic aggregation of the fetched sample sequence with the
grouping mode; `pool_id` and the date strings (beyond their parse
outcome) cannot influence them. -/
theorem aggregate_usage_determined_by_fetched_samples
    (b : List (Int × ℚ)) (pool from_date to_date gb : String)
    (df dt : Int × Nat × Nat)
    (hf : parse_date_str from_date = .ok df)
    (ht : parse_date_str to_date = .ok dt) :
    aggregate_usage_run b pool from_date to_date gb = aggregate_usage b gb := by
  unfold aggregate_usage_run
  rw [hf, ht]

/-- C9 amended-claim witness: a run with well-formed dates equals the
pure aggregation of the fetched samples. -/
theorem aggregate_usage_determined_by_fetched_samples_witness :
    parse_date_str "2025-10-01" = .ok (2025, 10, 1) ∧
    parse_date_str "2025-10-02" = .ok (2025, 10, 2) ∧
    aggregate_usage_run [(0, 100)] "7" "2025-10-01" "2025-10-02" "day"
      = aggregate_usage [(0, 100)] "day" :=
  ⟨by decide, by decide,
   aggregate_usage_determined_by_fetched_samples [(0, 100)] "7" "2025-10-01" "2025-10-02"
     "day" (2025, 10, 1) (2025, 10, 2) (by decide) (by decide)⟩

/-- C10: Every bucket that the aggregation reduces has at least one value,
so the divisor in `avg_bytes = sum(vals) / len(vals)` is at least 1 and the
division-by-zero branch is unreachable; a bucket exists only if at least
one sample produced it. -/
theorem bucket_count_positive
    (samples : List (Int × ℚ)) (gb : String) (keyed : List (String × ℚ))
    (hkey : keySamples gb samples = .ok keyed) :
    ∀ p ∈ sortedPeriods keyed,
      0 < (bucketValues keyed p).length ∧
      (mkRow keyed p).avg_bytes
        = (bucketValues keyed p).sum / ((bucketValues keyed p).length : ℚ) := by
  intro p hp
  exact ⟨List.length_pos.2 (bucketValues_ne_nil (mem_sortedPeriods.1 hp)), rfl⟩

/-- C10 witness: a single sample produces a single one-element bucket. -/
theorem bucket_count_positive_witness :
    keySamples "day" [(0, 100)] = .ok [("1970-01-01", 100)] ∧
    "1970-01-01" ∈ sortedPeriods [("1970-01-01", 100)] ∧
    (0 < (bucketValues [("1970-01-01", 100)] "1970-01-01").length ∧
     (mkRow [("1970-01-01", 100)] "1970-01-01").avg_bytes
       = (bucketValues [("1970-01-01", 100)] "1970-01-01").sum
         / ((bucketValues [("1970-01-01", 100)] "1970-01-01").length : ℚ)) :=
  ⟨by decide, by decide,
   bucket_count_positive [(0, 100)] "day" [("1970-01-01", 100)] (by decide)
     "1970-01-01" (by decide)⟩
